import Mathlib

/-!
Verification development for the rule-based proxy gateway (experimental-clash).

This file shallowly embeds the parts of the Go source that the checked
properties are about:

* `component/trie/ipcidr_node.go` — the 256-ary byte-wise IPv4 CIDR trie
  (`IpCidrTrie`, `AddIpCidr`, `IsContain`, `splitSubIpCidr`, `search`).
* `tunnel/tunnel.go` — the dispatch engine (`match`, `resolveMetadata`,
  `shouldResolveIP`) and `tunnel/mode.go` pass handling
  (`safeAssertProxyType`).
* `adapter/provider/fetcher.go` and `rule/provider/rule_set.go` — the
  provider `Update` path.
* `transport/socks4/socks4.go` — the SOCKS4 / SOCKS4A handshake.
* `transport/vless/conn.go` — the VLESS request / response framing.
* the UDP NAT single-flight coordination of `tunnel.handleUDPConn`,
  modelled as a step relation.

Go machine integers are modelled as `Nat` with explicit `% 2 ^ w` where
overflow matters, byte slices as `List Nat`, fallible code as `Option` or
`Except`, and potential nil-pointer dereferences as an outer `Option`
layer (`none` marks a fault).
-/

namespace Clash

/-! ## IP-CIDR trie (component/trie/ipcidr_node.go) -/

/-- Embeds `IpCidrNode`: a tag plus 256 child pointers. A child pointer is
`Option` valued; `none` is the Go nil pointer. The child array is modelled
as a total function on `Nat`, with indices 256 and above unused. -/
inductive IpCidrNode where
  | mk : Bool → (Nat → Option IpCidrNode) → IpCidrNode

/-- Field `Tag` of `IpCidrNode`. -/
def IpCidrNode.tag : IpCidrNode → Bool
  | .mk t _ => t

/-- Field `child` of `IpCidrNode`. -/
def IpCidrNode.child : IpCidrNode → Nat → Option IpCidrNode
  | .mk _ c => c

/-- Embeds `NewIpCidrNode(tag, false)`: no children allocated. -/
def newIpCidrNode (tag : Bool) : IpCidrNode :=
  .mk tag (fun _ => none)

/-- Embeds `NewIpCidrNode(tag, true)`: all 256 children allocated as
`NewIpCidrNode(false, false)`. -/
def newIpCidrNodeInit (tag : Bool) : IpCidrNode :=
  .mk tag (fun v => if v < 256 then some (newIpCidrNode false) else none)

/-- Embeds method `getChild`: nil when the node is tagged. -/
def IpCidrNode.getChild (n : IpCidrNode) (v : Nat) : Option IpCidrNode :=
  if n.tag then none else n.child v

/-- Embeds method `hasChild`: true when the node is untagged and the child
pointer is non-nil. -/
def IpCidrNode.hasChild (n : IpCidrNode) (v : Nat) : Bool :=
  !n.tag && (n.child v).isSome

/-- Embeds `IpCidrTrie`. -/
structure IpCidrTrie where
  root : IpCidrNode

/-- Embeds `NewIpCidrTrie()`: the root has its full child array allocated. -/
def newIpCidrTrie : IpCidrTrie :=
  ⟨newIpCidrNodeInit false⟩

/-- Embeds the loop body of `addIpCidr` below the root: walks the remaining
bytes, stopping at an already-tagged node, allocating missing children, and
at the end of the path sets `Tag` and runs `cleanChild` (all child pointers
become nil). -/
def addPath (node : IpCidrNode) : List Nat → IpCidrNode
  | [] => .mk true (fun _ => none)
  | v :: rest =>
    if node.tag then node
    else
      match node.child v with
      | some c => .mk node.tag (fun w => if w = v then some (addPath c rest) else node.child w)
      | none => .mk node.tag (fun w => if w = v then some (addPath (newIpCidrNode false) rest) else node.child w)

/-- Embeds `addIpCidr(trie, ip, cidrByteSize)`. The Go code first takes
`trie.root.getChild(ip[0])` and dereferences the result without a nil
check, so the embedding returns `none` on that fault. The loop runs over
`ip[1] .. ip[cidrByteSize-1]`. -/
def addIpCidrGo (t : IpCidrTrie) (ip : List Nat) (cidrByteSize : Nat) : Option IpCidrTrie :=
  match t.root.getChild (ip.getD 0 0) with
  | none => none
  | some node =>
    some ⟨.mk t.root.tag (fun w =>
      if w = ip.getD 0 0 then some (addPath node ((ip.drop 1).take (cidrByteSize - 1)))
      else t.root.child w)⟩

/-- Go strings are byte arrays and the parsers index them byte by byte.
Strings are mapped to byte lists; for the ASCII bytes the parsers inspect
(digits, dots, slashes, colons) `Char.toNat` coincides with the UTF-8
byte, and every non-ASCII character yields only values the parsers reject,
exactly as its UTF-8 bytes would be rejected. -/
def strBytes (s : String) : List Nat :=
  s.data.map Char.toNat

/-- Embeds `dtoi`: reads a decimal prefix of a byte string, returning the
value, the number of bytes consumed and an ok flag; overflow is capped at
`big = 0xFFFFFF`. -/
def dtoiLoop : List Nat → Nat → Nat → Nat × Nat × Bool
  | [], n, i => (n, i, true)
  | c :: rest, n, i =>
    if 48 ≤ c ∧ c ≤ 57 then
      let n2 := n * 10 + (c - 48)
      if n2 ≥ 0xFFFFFF then (0xFFFFFF, i, false)
      else dtoiLoop rest n2 (i + 1)
    else (n, i, true)

/-- Embeds `dtoi` including its post-loop empty check. -/
def dtoi (s : List Nat) : Nat × Nat × Bool :=
  match dtoiLoop s 0 0 with
  | (n, i, ok) =>
    if !ok then (n, i, false)
    else if i = 0 then (0, 0, false)
    else (n, i, true)

/-- Embeds one iteration of the loop in `validAndObtainIp` (also the loop
of the net package parser `parseIPv4` this code was copied from): check
the remaining input is nonempty, on later iterations require and strip a
dot (byte 46), then read one decimal octet of value at most 255. -/
def stripDot (first : Bool) (ip : List Nat) : Option (List Nat) :=
  if first then some ip
  else
    match ip with
    | 46 :: rest => some rest
    | _ => none

/-- Second half of the loop iteration: read one decimal octet of value at
most 255 after the dot handling of `stripDot`. -/
def readIpOctet (first : Bool) (ip : List Nat) : Option (Nat × List Nat) :=
  if ip.isEmpty then none
  else
    match stripDot first ip with
    | none => none
    | some ip2 =>
      match dtoi ip2 with
      | (n, c, ok) =>
        if !ok ∨ n > 0xFF then none
        else some (n, ip2.drop c)

/-- Embeds `validAndObtainIp`: four dot-separated octets; trailing input is
ignored, exactly as in the source. -/
def validAndObtainIp (s : List Nat) : Option (List Nat) :=
  match readIpOctet true s with
  | none => none
  | some (a, r1) =>
    match readIpOctet false r1 with
    | none => none
    | some (b, r2) =>
      match readIpOctet false r2 with
      | none => none
      | some (c, r3) =>
        match readIpOctet false r3 with
        | none => none
        | some (d, _) => some [a, b, c, d]

/-- Errors of the trie package. -/
inductive TrieErr where
  | invalidIpFormat
  | invalidIpCidrFormat
deriving DecidableEq

/-- Digit-string parser used by the `strconv.Atoi` model. -/
def parseDigits : List Nat → Option Nat
  | [] => none
  | l =>
    if l.all (fun c => 48 ≤ c ∧ c ≤ 57) then
      some (l.foldl (fun n c => n * 10 + (c - 48)) 0)
    else none

/-- Models `strconv.Atoi`: an optional sign followed by one or more
digits. Inputs that Go rejects for range are larger than 32 in absolute
value, so they are rejected by the caller range check either way. -/
def atoiGo (s : List Nat) : Option Int :=
  match s with
  | 43 :: rest => (parseDigits rest).map Int.ofNat
  | 45 :: rest => (parseDigits rest).map (fun n => -(n : Int))
  | _ => (parseDigits s).map Int.ofNat

/-- Models `strings.Split` for a one-byte separator. -/
def splitOnByte (sep : Nat) : List Nat → List (List Nat)
  | [] => [[]]
  | c :: rest =>
    let r := splitOnByte sep rest
    if c = sep then [] :: r
    else (c :: r.headD []) :: r.tail

/-- Embeds `splitSubIpCidr`: splits a CIDR string into the list of
/8-aligned prefixes the source produces, together with the aligned mask
length. The bitwise operations on `uint8` become arithmetic: for
`k = cidr % 8`, `x & (0xFF >> k)` is `x % 2 ^ (8 - k)` and
`x & uint8(0xFF << (8 - k))` is `x - x % 2 ^ (8 - k)`. -/
def splitSubIpCidr (s : String) : Except TrieErr (List (List Nat) × Nat) :=
  match splitOnByte 47 (strBytes s) with
  | [ipPart, cidrPart] =>
    match validAndObtainIp ipPart with
    | none => .error .invalidIpFormat
    | some uint8Ip =>
      match atoiGo cidrPart with
      | none => .error .invalidIpCidrFormat
      | some cidrZ =>
        if cidrZ < 0 ∨ cidrZ > 32 then .error .invalidIpCidrFormat
        else
          let cidr := cidrZ.toNat
          if cidr = 0 then .ok ([[0, 0, 0, 0]], 0)
          else
            let cidrIndex := cidr / 8
            let lastIndexCidrNum := cidr % 8
            if lastIndexCidrNum = 0 then
              let index := if cidrIndex > 3 then 3 else cidrIndex
              let sub := (List.range 4).map (fun i => if i ≤ index then uint8Ip.getD i 0 else 0)
              .ok ([sub], cidrIndex * 8)
            else
              let octet := uint8Ip.getD cidrIndex 0
              let subIpCidrNum := octet % 2 ^ (8 - lastIndexCidrNum)
              let endCidr := octet - octet % 2 ^ (8 - lastIndexCidrNum)
              let subs := (List.range subIpCidrNum).map (fun i =>
                (List.range 4).map (fun j =>
                  if j < cidrIndex then uint8Ip.getD j 0
                  else if j = cidrIndex then (endCidr + i) % 256
                  else 0))
              .ok (subs, (cidrIndex + 1) * 8)
  | _ => .error .invalidIpCidrFormat

/-- Embeds `IpCidrTrie.AddIpCidr`: split, then insert each aligned prefix
with `cidrByteSize = subCidr / 8`. The inner `Option` layer is `none` when
an insertion would dereference nil (never reached from a well-formed
root). -/
def addIpCidr (t : IpCidrTrie) (s : String) : Except TrieErr (Option IpCidrTrie) :=
  match splitSubIpCidr s with
  | .error e => .error e
  | .ok (subs, subCidr) =>
    .ok (subs.foldlM (fun tr sub => addIpCidrGo tr sub (subCidr / 8)) t)

/-- Embeds the loop of `search` together with the tag check that precedes
it: stop with a hit at any tagged node, stop with a miss when a child is
missing or the input bytes run out. -/
def searchLoop : IpCidrNode → List Nat → Option IpCidrNode
  | node, l =>
    if node.tag then some node
    else
      match l with
      | [] => none
      | v :: vs =>
        match node.child v with
        | none => none
        | some c => searchLoop c vs

/-- Embeds `search(root, partValues)`: the source dereferences
`root.getChild(partValues[0])` without a nil check, so the outer `Option`
is `none` exactly when that dereference (or the index) would fault. -/
def searchGo (root : IpCidrNode) (vals : List Nat) : Option (Option IpCidrNode) :=
  match vals with
  | [] => none
  | v :: rest =>
    match root.getChild v with
    | none => none
    | some node => some (searchLoop node rest)

/-- Embeds `IpCidrTrie.IsContain`: parse the address, then search; the
outer `Option` is `none` exactly when the Go code would fault. -/
def isContain (t : IpCidrTrie) (s : String) : Option Bool :=
  match validAndObtainIp (strBytes s) with
  | none => some false
  | some vals => (searchGo t.root vals).map Option.isSome

/-- True when `AddIpCidr` succeeds without error and without fault. -/
def addOk (t : IpCidrTrie) (s : String) : Bool :=
  match addIpCidr t s with
  | .ok (some _) => true
  | _ => false

/-- Folds a list of `AddIpCidr` calls over the empty trie, keeping the trie
unchanged on error or fault; the resulting tries are exactly the tries
reachable by sequences of successful insertions. -/
def buildTrie (ops : List String) : IpCidrTrie :=
  ops.foldl (fun t s =>
    match addIpCidr t s with
    | .ok (some t2) => t2
    | _ => t) newIpCidrTrie

/-- Well-formedness of a trie root: untagged with its 256 children
allocated, as `NewIpCidrTrie` establishes; insertions never touch the
root itself, so this is an invariant. -/
def GoodRoot (t : IpCidrTrie) : Prop :=
  t.root.tag = false ∧ ∀ v, v < 256 → (t.root.child v).isSome

/-! ## Dispatch engine (tunnel/tunnel.go, tunnel/mode.go, constant/metadata.go) -/

/-- Embeds `constant.NetWork`. -/
inductive NetWorkKind where
  | tcp
  | udp
deriving DecidableEq

/-- Embeds `constant.Type`, the inbound source kind. -/
inductive InboundKind where
  | http
  | httpConnect
  | socks4
  | socks4A
  | socks5
  | redir
  | tproxy
deriving DecidableEq

/-- Embeds `constant.AdapterType` (declared in `constant/adapters.go`,
outside the provided sources; only `Pass` is distinguished by the dispatch
code). -/
inductive AdapterType where
  | Direct
  | Reject
  | Pass
  | Selector
  | Fallback
  | URLTest
  | LoadBalance
  | Shadowsocks
  | ShadowsocksR
  | Snell
  | Socks5
  | Http
  | Vmess
  | Vless
  | Trojan
deriving DecidableEq

/-- Models `net.IP` as raw bytes; a nil `net.IP` is `Option.none` at use
sites. -/
def GoIP := List Nat
deriving DecidableEq

/-- Embeds `constant.Metadata`. String-typed fields stay `String`; the
nilable `net.IP` fields become `Option GoIP`. -/
structure Metadata where
  network : NetWorkKind
  inboundType : InboundKind
  srcIP : Option GoIP
  dstIP : Option GoIP
  srcPort : String
  dstPort : String
  addrType : Nat
  host : String

/-- Embeds the `constant.Proxy` interface as the dispatch engine consumes
it: a name, a type, UDP support, and `Unwrap` (nil result is `none`). -/
inductive Proxy where
  | mk : String → AdapterType → Bool → (Metadata → Option Proxy) → Proxy

/-- Go method `Name()`. -/
def Proxy.name : Proxy → String
  | .mk n _ _ _ => n

/-- Go method `Type()`. -/
def Proxy.adapterType : Proxy → AdapterType
  | .mk _ t _ _ => t

/-- Go method `SupportUDP()`. -/
def Proxy.supportUDP : Proxy → Bool
  | .mk _ _ u _ => u

/-- Go method `Unwrap(metadata)`. -/
def Proxy.unwrap : Proxy → Metadata → Option Proxy
  | .mk _ _ _ f, m => f m

/-- Embeds the `constant.Rule` interface as the dispatch engine consumes
it: `Match`, `Adapter`, `ShouldResolveIP` and `Payload`. -/
structure GoRule where
  Match : Metadata → Bool
  Adapter : String
  ShouldResolveIP : Bool
  Payload : String

/-- The shared configuration the `match` function reads under the config
lock: the rule list and the proxy map, together with the two resolver
collaborators it calls (`resolver.DefaultHosts.Search` yielding the hosts
trie entry for a host, and `resolver.ResolveIP`, `none` meaning error). -/
structure TunnelState where
  rules : List GoRule
  proxies : String → Option Proxy
  hosts : String → Option GoIP
  resolveIP : String → Option GoIP

/-- Embeds `safeAssertProxyType(adapter, metadata, proxyType)`: unwrap
once and compare the type; nil unwrap yields false. The adapter and
metadata nil checks of the source are vacuous in the embedding. -/
def safeAssertProxyType (adapter : Proxy) (m : Metadata) (proxyType : AdapterType) : Bool :=
  match adapter.unwrap m with
  | none => false
  | some p => p.adapterType = proxyType

/-- Embeds `shouldResolveIP(rule, metadata)`. -/
def shouldResolveIP (rule : GoRule) (m : Metadata) : Bool :=
  rule.ShouldResolveIP && (m.host ≠ "") && (m.dstIP = none)

/-- One pre-rule lazy-resolve step of `match`: when no resolution has
happened and `shouldResolveIP` holds, call the resolver (counted by the
third component), set the destination IP on success, leave it unchanged on
failure, and mark `resolved` in both cases. -/
def matchStepResolve (ts : TunnelState) (m : Metadata) (resolved : Bool) (rule : GoRule) :
    Metadata × Bool × Nat :=
  if !resolved && shouldResolveIP rule m then
    match ts.resolveIP m.host with
    | none => (m, true, 1)
    | some ip => ({ m with dstIP := some ip }, true, 1)
  else (m, resolved, 0)

/-- Result of the rule loop: the metadata as mutated, the returned proxy
and rule, and the number of resolver invocations made. -/
structure LoopOut where
  m : Metadata
  proxy : Option Proxy
  rule : Option GoRule
  calls : Nat

/-- Adds the resolver invocations of an earlier step to a loop result. -/
def bumpCalls (o : LoopOut) (k : Nat) : LoopOut :=
  { o with calls := k + o.calls }

/-- Embeds the rule loop of `match`: lazy resolve before each rule, then
on a rule match skip the rule when the adapter is missing, is of type
`Pass`, unwraps to `Pass`, or lacks UDP support on a UDP flow; otherwise
return the adapter and rule. The fallthrough returns the `DIRECT` map
entry and no rule. -/
def matchLoop (ts : TunnelState) : Metadata → Bool → List GoRule → LoopOut
  | m, _, [] => ⟨m, ts.proxies "DIRECT", none, 0⟩
  | m, resolved, rule :: rest =>
    match matchStepResolve ts m resolved rule with
    | (m2, resolved2, k) =>
      if rule.Match m2 then
        match ts.proxies rule.Adapter with
        | none => bumpCalls (matchLoop ts m2 resolved2 rest) k
        | some adapter =>
          if adapter.adapterType = AdapterType.Pass ∨ safeAssertProxyType adapter m2 AdapterType.Pass then
            bumpCalls (matchLoop ts m2 resolved2 rest) k
          else if m2.network = NetWorkKind.udp ∧ adapter.supportUDP = false then
            bumpCalls (matchLoop ts m2 resolved2 rest) k
          else ⟨m2, some adapter, some rule, k⟩
      else bumpCalls (matchLoop ts m2 resolved2 rest) k

/-- Embeds `match(metadata)`: consult the hosts trie first (setting the
destination IP and the resolved flag on a hit), then run the rule loop.
The Go function always returns a nil error. -/
def matchGo (ts : TunnelState) (m : Metadata) : LoopOut :=
  match ts.hosts m.host with
  | some ip => matchLoop ts { m with dstIP := some ip } true ts.rules
  | none => matchLoop ts m false ts.rules

/-- Modelled from the spec: `TunnelMode` (tunnel/mode.go is outside the
provided sources); section 4.2 names the three modes Direct, Global and
Rule. -/
inductive TunnelMode where
  | Global
  | Rule
  | Direct
deriving DecidableEq

/-- Embeds `resolveMetadata`: mode Direct selects the `DIRECT` map entry,
Global the `GLOBAL` entry, and the default branch runs `match`. -/
def resolveMetadata (ts : TunnelState) (mode : TunnelMode) (m : Metadata) : LoopOut :=
  match mode with
  | .Direct => ⟨m, ts.proxies "DIRECT", none, 0⟩
  | .Global => ⟨m, ts.proxies "GLOBAL", none, 0⟩
  | .Rule => matchGo ts m

/-- The skip conditions of claim C5, written from the claim text: the
adapter name is absent from the proxy map, or the adapter is of type
`Pass`, or its `Unwrap(metadata)` yields a non-nil adapter of type `Pass`,
or the flow is UDP and the adapter does not support UDP. -/
def skipConditions (ts : TunnelState) (m : Metadata) (rule : GoRule) : Prop :=
  ts.proxies rule.Adapter = none ∨
    (∃ a, ts.proxies rule.Adapter = some a ∧
      (a.adapterType = AdapterType.Pass ∨
        (∃ p, a.unwrap m = some p ∧ p.adapterType = AdapterType.Pass) ∨
        (m.network = NetWorkKind.udp ∧ a.supportUDP = false)))

/-- A concrete metadata record used by the witness theorems. -/
def witnessMeta : Metadata :=
  ⟨NetWorkKind.tcp, InboundKind.socks5, none, none, "0", "443", 3, "example.com"⟩

/-- A concrete always-matching rule whose adapter name is absent from the
witness proxy map. -/
def witnessRule : GoRule :=
  ⟨fun _ => true, "MISSING", false, "example"⟩

/-- A concrete rule that requests IP resolution. -/
def witnessResolvingRule : GoRule :=
  ⟨fun _ => true, "LAN", true, "10.0.0.0/8"⟩

/-- A concrete tunnel state used by the witness theorems: one rule, an
empty proxy map, an empty hosts trie, and a stub resolver. -/
def witnessTs : TunnelState :=
  ⟨[witnessRule], fun _ => none, fun _ => none, fun _ => some [10, 1, 2, 3]⟩

/-! ## Fetcher update (adapter/provider/fetcher.go, rule/provider/rule_set.go) -/

/-- Embeds `provider.VehicleType` for the two vehicles the spec names. -/
inductive VehicleType where
  | File
  | HTTP
deriving DecidableEq

/-- The mutable fields of `fetcher` that `Update` touches: the stored
16-byte content hash and the update timestamp. -/
structure FetcherState where
  hash : List Nat
  updatedAt : Option Nat

/-- The environment of one `fetcher.Update()` call: the outcome of
`vehicle.Read()`, the MD5 function (an external primitive, kept
abstract), the parser callback, the vehicle type, the outcome a
`safeWrite` would have, and the current time. -/
structure FetchEnv (α : Type) where
  read : Except String (List Nat)
  md5 : List Nat → List Nat
  parse : List Nat → Except String α
  vehicleType : VehicleType
  writeOk : Bool
  now : Nat

/-- Observed outcome of `fetcher.Update()`: the Go results
`(elm, same, err)`, the fetcher state afterwards, whether the parser ran,
and the bytes persisted by `safeWrite` when one succeeded. -/
structure UpdateOut (α : Type) where
  elm : Option α
  same : Bool
  err : Option String
  st : FetcherState
  parseCalled : Bool
  persisted : Option (List Nat)

/-- Embeds `fetcher.Update()`: fetch, compare the MD5 of the bytes with
the stored hash, short-circuit on equality, otherwise parse, persist
unless the vehicle is `File`, and replace the stored hash. Every error
path leaves the stored hash unchanged. -/
def fetcherUpdate {α : Type} (env : FetchEnv α) (f : FetcherState) : UpdateOut α :=
  match env.read with
  | .error e => ⟨none, false, some e, f, false, none⟩
  | .ok buf =>
    let hash := env.md5 buf
    if f.hash = hash then
      ⟨none, true, none, { f with updatedAt := some env.now }, false, none⟩
    else
      match env.parse buf with
      | .error e => ⟨none, false, some e, f, true, none⟩
      | .ok rules =>
        if env.vehicleType ≠ VehicleType.File ∧ env.writeOk = false then
          ⟨none, false, some "safeWrite failed", f, true, none⟩
        else
          ⟨some rules, false, none, { f with updatedAt := some env.now, hash := hash },
            true, if env.vehicleType ≠ VehicleType.File then some buf else none⟩

/-- The provider-level state `onUpdate` mutates: the parsed rule
container and the entry count. -/
structure ProviderState (β : Type) where
  fetcher : FetcherState
  rules : Option β
  count : Nat

/-- Observed outcome of `ruleSetProvider.Update()`: the returned error,
the provider state afterwards, and the raw entries handed to the update
callback when it was invoked. -/
structure ProviderOut (α β : Type) where
  err : Option String
  st : ProviderState β
  callbackArg : Option α

/-- Embeds `ruleSetProvider.Update()` together with the `onUpdate`
closure of `NewRuleSetProvider`: run `fetcher.Update`; when it returns no
error and the content changed, hand the parse result to the callback,
which records the count and rebuilds the rule container with
`constructRules` (kept abstract as `construct`). -/
def providerUpdate {α β : Type} (env : FetchEnv α) (construct : α → Except String β)
    (countOf : α → Nat) (st : ProviderState β) : ProviderOut α β :=
  let o := fetcherUpdate env st.fetcher
  if o.err = none ∧ o.same = false then
    match o.elm with
    | none => ⟨none, { st with fetcher := o.st }, none⟩
    | some raw =>
      match construct raw with
      | .error e => ⟨some e, { st with fetcher := o.st, count := countOf raw }, some raw⟩
      | .ok rs =>
        ⟨none, { fetcher := o.st, rules := some rs, count := countOf raw }, some raw⟩
  else ⟨o.err, { st with fetcher := o.st }, none⟩

/-! ## SOCKS4 / SOCKS4A handshake (transport/socks4/socks4.go) -/

/-- Models the IPv4 branch of `net.ParseIP`: the same octet loop as
`validAndObtainIp` but requiring the input to be fully consumed. Hosts
containing a colon never reach this parser in `ClientHandshake`: either
`net.SplitHostPort` rejects them or `net.ParseIP` classifies them as IPv6
and the handshake errors out before writing, so the handshake theorems
assume a colon-free host. -/
def parseIPv4Go (s : List Nat) : Option (List Nat) :=
  match readIpOctet true s with
  | none => none
  | some (a, r1) =>
    match readIpOctet false r1 with
    | none => none
    | some (b, r2) =>
      match readIpOctet false r2 with
      | none => none
      | some (c, r3) =>
        match readIpOctet false r3 with
        | none => none
        | some (d, r4) => if r4 = [] then some [a, b, c, d] else none

/-- Embeds `isReservedIP`: inside `0.0.0.0/24` and not the unspecified
address, that is `0.0.0.x` with `x` nonzero. -/
def isReservedIP (ip : List Nat) : Bool :=
  (decide (ip.getD 0 0 = 0) && decide (ip.getD 1 0 = 0) && decide (ip.getD 2 0 = 0)) &&
    !(decide (ip = [0, 0, 0, 0]))

/-- The destination address `ClientHandshake` puts in the fixed header: the
parsed IPv4 address, or the SOCKS4A marker address `0.0.0.1` when the host
does not parse as IPv4. -/
def socks4DstIP (host : List Nat) : List Nat :=
  match parseIPv4Go host with
  | some p => p
  | none => [0, 0, 0, 1]

/-- Embeds the request-building half of `ClientHandshake` after
`net.SplitHostPort`: `none` models the `strconv.ParseUint(portStr, 10, 16)`
range error; for a reserved destination address the host and a
terminating NUL are appended after the NUL-terminated user id. -/
def clientRequestBytes (host : List Nat) (port : Nat) (command : Nat) (userID : List Nat) :
    Option (List Nat) :=
  if port ≥ 65536 then none
  else
    some ([4, command % 256] ++ [port / 256, port % 256] ++ socks4DstIP host ++ userID ++ [0] ++
      (if isReservedIP (socks4DstIP host) then host ++ [0] else []))

/-- Embeds `readUntilNull`: returns the bytes before the first NUL and the
remaining stream; `none` models the read error when the stream ends. -/
def readUntilNullGo : List Nat → Option (List Nat × List Nat)
  | [] => none
  | b :: rest =>
    if b = 0 then some ([], rest)
    else (readUntilNullGo rest).map (fun p => (b :: p.1, p.2))

/-- Embeds `socks4.Addr` (network and string formatting omitted). -/
structure Socks4Addr where
  ip : Option (List Nat)
  host : List Nat
  port : Nat
deriving DecidableEq

/-- Observed outcome of `ServerHandshake`: the returned address and
command, the user id handed to the authenticator, and whether an error
was returned. The reply write is not modelled; the authenticator is nil
so the request is granted. -/
structure ServerOut where
  addr : Option Socks4Addr
  command : Nat
  userID : Option (List Nat)
  errored : Bool
deriving DecidableEq

/-- Embeds `ServerHandshake` reading from a byte stream: an 8-byte header
with version 4 and command `CONNECT`, the NUL-terminated user id, and for
a reserved destination address a NUL-terminated host; the address is
host-based exactly when the host read is nonempty. -/
def serverHandshake (input : List Nat) : ServerOut :=
  match input with
  | b0 :: b1 :: b2 :: b3 :: b4 :: b5 :: b6 :: b7 :: rest =>
    if b0 ≠ 4 then ⟨none, 0, none, true⟩
    else if b1 ≠ 1 then ⟨none, b1, none, true⟩
    else
      match readUntilNullGo rest with
      | none => ⟨none, b1, none, true⟩
      | some (userID, rest2) =>
        match (if isReservedIP [b4, b5, b6, b7] then readUntilNullGo rest2
            else some ([], rest2)) with
        | none => ⟨none, b1, some userID, true⟩
        | some (host, _) =>
          if host ≠ [] then ⟨some ⟨none, host, b2 * 256 + b3⟩, b1, some userID, false⟩
          else ⟨some ⟨some [b4, b5, b6, b7], [], b2 * 256 + b3⟩, b1, some userID, false⟩
  | _ => ⟨none, 0, none, true⟩

/-- The address the SOCKS4 roundtrip is expected to recover, written from
the claim text: the original IPv4 address for a plain IPv4 destination,
otherwise the original host (with the empty host degenerating to the
SOCKS4A marker address, which is what the wire format transports). -/
def expectedSocks4Addr (host : List Nat) (port : Nat) : Socks4Addr :=
  match parseIPv4Go host with
  | some p => if isReservedIP p then ⟨none, host, port⟩ else ⟨some p, [], port⟩
  | none => if host = [] then ⟨some [0, 0, 0, 1], [], port⟩ else ⟨none, host, port⟩

/-! ## VLESS framing (transport/vless/conn.go) -/

/-- Protocol version byte of the VLESS preview protocol. -/
def vlessVersion : Nat := 0

/-- Modelled from the spec: `vmess.CommandTCP` (the vmess constants file
is outside the provided sources; section 6 fixes CMD TCP = 1). -/
def commandTCP : Nat := 1

/-- Modelled from the spec: `vmess.CommandUDP` (CMD UDP = 2). -/
def commandUDP : Nat := 2

/-- Embeds `vmess.DstAddr` as consumed by the VLESS connection. -/
structure DstAddr where
  udp : Bool
  addrType : Nat
  addr : List Nat
  port : Nat

/-- Embeds `Conn.sendRequest`: the byte sequence written on the first
stream bytes. The port is written as a big-endian `uint16`. -/
def sendRequestBytes (id : List Nat) (dst : DstAddr) : List Nat :=
  [vlessVersion] ++ id ++ [0] ++
    [if dst.udp then commandUDP else commandTCP] ++
    [dst.port % 65536 / 256, dst.port % 256] ++
    [dst.addrType] ++ dst.addr

/-- Embeds `Conn.recvResponse` over the incoming stream: read one version
byte (must equal 0), read one addon length byte, and discard that many
addon bytes (the `io.CopyN` error is ignored by the source); the result is
the remaining stream. -/
def recvResponseGo (s : List Nat) : Except String (List Nat) :=
  match s with
  | [] => .error "EOF"
  | v :: rest =>
    if v ≠ vlessVersion then .error "unexpected response version"
    else
      match rest with
      | [] => .error "EOF"
      | len :: rest2 => .ok (rest2.drop len)

/-! ## UDP NAT single-flight coordination (tunnel/tunnel.go handleUDPConn)

Modelled from the spec: the NAT table itself (`component/nat`) is outside
the provided sources; section 4.5 specifies `GetOrCreateLock(key)` as an
atomic first-caller-wins insertion of a lock token and `Delete` as its
removal, with waiters blocked on the condition variable until the owner
broadcasts. The interleaving of the packet-handling tasks of
`handleUDPConn` is modelled as a step relation over a system state. -/

/-- Phase of one packet-handling task for a given source key: `ready`
before `GetOrCreateLock`, `owner` between acquiring the lock token
(loaded = false) and the deferred delete-and-broadcast — the window in
which `resolveMetadata` and the outbound `ListenPacketContext` dial run —
`waiting` while blocked on the condition variable, `done` afterwards. -/
inductive UdpPhase where
  | ready
  | owner
  | waiting
  | done
deriving DecidableEq

/-- One packet-handling task: its NAT key and current phase. -/
structure UdpTask where
  key : String
  phase : UdpPhase

/-- System state: the tasks, the lock tokens present in the NAT table
(`key + "-lock"` entries), and the installed NAT entries. -/
structure NatSys where
  tasks : List UdpTask
  lock : String → Bool
  nat : String → Bool

/-- The interleaving steps of `handleUDPConn`:
`spawn` — a new packet arrives; `hitEntry` — the first `handle()` finds
the NAT entry and forwards; `acquire` — `GetOrCreateLock` returns
loaded = false and the task becomes the owner; `waitOn` — the token was
present, the task blocks on the condition variable; `ownerDone` — the
owner finishes (entry installed on dial success, not installed on
failure), deletes the lock token and broadcasts; `wake` — a broadcast
waiter re-looks-up the entry and forwards or drops. -/
inductive NatStep : NatSys → NatSys → Prop where
  | spawn (s : NatSys) (k : String) :
      NatStep s ⟨⟨k, .ready⟩ :: s.tasks, s.lock, s.nat⟩
  | hitEntry (s : NatSys) (pre post : List UdpTask) (k : String) :
      s.tasks = pre ++ ⟨k, .ready⟩ :: post → s.nat k = true →
      NatStep s ⟨pre ++ ⟨k, .done⟩ :: post, s.lock, s.nat⟩
  | acquire (s : NatSys) (pre post : List UdpTask) (k : String) :
      s.tasks = pre ++ ⟨k, .ready⟩ :: post → s.nat k = false → s.lock k = false →
      NatStep s ⟨pre ++ ⟨k, .owner⟩ :: post, fun k2 => if k2 = k then true else s.lock k2, s.nat⟩
  | waitOn (s : NatSys) (pre post : List UdpTask) (k : String) :
      s.tasks = pre ++ ⟨k, .ready⟩ :: post → s.nat k = false → s.lock k = true →
      NatStep s ⟨pre ++ ⟨k, .waiting⟩ :: post, s.lock, s.nat⟩
  | ownerDone (s : NatSys) (pre post : List UdpTask) (k : String) (installed : Bool) :
      s.tasks = pre ++ ⟨k, .owner⟩ :: post →
      NatStep s ⟨pre ++ ⟨k, .done⟩ :: post, fun k2 => if k2 = k then false else s.lock k2,
        fun k2 => if k2 = k then installed else s.nat k2⟩
  | wake (s : NatSys) (pre post : List UdpTask) (k : String) :
      s.tasks = pre ++ ⟨k, .waiting⟩ :: post → s.lock k = false →
      NatStep s ⟨pre ++ ⟨k, .done⟩ :: post, s.lock, s.nat⟩

/-- The initial system: no tasks, no lock tokens, no NAT entries. -/
def natInit : NatSys :=
  ⟨[], fun _ => false, fun _ => false⟩

/-- States reachable from the initial system by interleaving steps. -/
def NatReachable (s : NatSys) : Prop :=
  Relation.ReflTransGen NatStep natInit s

/-- Recognizes a task holding owner status for key `k`. -/
def ownerPred (k : String) : UdpTask → Bool :=
  fun t => decide (t.key = k) && decide (t.phase = UdpPhase.owner)

/-- Number of tasks currently holding owner status — equivalently, with a
dial in flight — for key `k`. -/
def ownersCount (s : NatSys) (k : String) : Nat :=
  s.tasks.countP (ownerPred k)

/-- The invariant carried through the step relation: at most one owner per
key, and an owner for a key implies its lock token is present. -/
def NatInv (s : NatSys) : Prop :=
  ∀ k, ownersCount s k ≤ 1 ∧ (1 ≤ ownersCount s k → s.lock k = true)

/-- The claim-side description of one provider `Update` call, written
from the text of C7 as amended: fetch or parse errors return the error
with hash and provider data unchanged and no callback; an unchanged MD5
short-circuits with `same` and without parsing, persisting or callback;
otherwise the bytes are parsed and persisted unless the vehicle is `File`
— a persist failure returning the error with hash and data unchanged and
no callback — and on success the hash is replaced and the parse result is
delivered to the callback. -/
def updateSpec {α β : Type} (env : FetchEnv α) (construct : α → Except String β)
    (countOf : α → Nat) (st : ProviderState β) : Prop :=
  match env.read with
  | .error e =>
    (fetcherUpdate env st.fetcher).err = some e ∧
      (fetcherUpdate env st.fetcher).st.hash = st.fetcher.hash ∧
      (fetcherUpdate env st.fetcher).parseCalled = false ∧
      (providerUpdate env construct countOf st).callbackArg = none ∧
      (providerUpdate env construct countOf st).st.rules = st.rules
  | .ok buf =>
    if st.fetcher.hash = env.md5 buf then
      (fetcherUpdate env st.fetcher).same = true ∧
        (fetcherUpdate env st.fetcher).err = none ∧
        (fetcherUpdate env st.fetcher).parseCalled = false ∧
        (fetcherUpdate env st.fetcher).persisted = none ∧
        (fetcherUpdate env st.fetcher).st.hash = st.fetcher.hash ∧
        (providerUpdate env construct countOf st).callbackArg = none ∧
        (providerUpdate env construct countOf st).st.rules = st.rules
    else
      match env.parse buf with
      | .error e =>
        (fetcherUpdate env st.fetcher).err = some e ∧
          (fetcherUpdate env st.fetcher).st.hash = st.fetcher.hash ∧
          (fetcherUpdate env st.fetcher).persisted = none ∧
          (providerUpdate env construct countOf st).callbackArg = none ∧
          (providerUpdate env construct countOf st).st.rules = st.rules
      | .ok rules =>
        if env.vehicleType ≠ VehicleType.File ∧ env.writeOk = false then
          (fetcherUpdate env st.fetcher).err.isSome ∧
            (fetcherUpdate env st.fetcher).st.hash = st.fetcher.hash ∧
            (fetcherUpdate env st.fetcher).persisted = none ∧
            (providerUpdate env construct countOf st).callbackArg = none ∧
            (providerUpdate env construct countOf st).st.rules = st.rules
        else
          (fetcherUpdate env st.fetcher).err = none ∧
            (fetcherUpdate env st.fetcher).st.hash = env.md5 buf ∧
            (fetcherUpdate env st.fetcher).persisted =
              (if env.vehicleType ≠ VehicleType.File then some buf else none) ∧
            (providerUpdate env construct countOf st).callbackArg = some rules

/-- A concrete environment for the C7 counterexample: the fetch returns
one byte, the MD5 of the fetched bytes differs from the stored hash, the
parse succeeds, the vehicle is HTTP and the persist step fails. -/
def cexEnv : FetchEnv Nat :=
  ⟨.ok [1], fun _ => [7], fun _ => .ok 5, VehicleType.HTTP, false, 0⟩

/-- The fetcher state for the C7 counterexample: stored hash `[0]`. -/
def cexFetcher : FetcherState :=
  ⟨[0], none⟩

/-- The provider state for the C7 counterexample. -/
def cexProvider : ProviderState Nat :=
  ⟨cexFetcher, none, 0⟩

/-! ## Theorems: IP-CIDR trie -/

@[simp] theorem IpCidrNode.tag_mk (t : Bool) (c : Nat → Option IpCidrNode) :
    (IpCidrNode.mk t c).tag = t := rfl

@[simp] theorem IpCidrNode.child_mk (t : Bool) (c : Nat → Option IpCidrNode) (v : Nat) :
    (IpCidrNode.mk t c).child v = c v := rfl

theorem goodRoot_new : GoodRoot newIpCidrTrie := by
  refine ⟨rfl, fun v hv => ?_⟩
  simp [newIpCidrTrie, newIpCidrNodeInit, hv]

theorem addIpCidrGo_goodRoot {t t2 : IpCidrTrie} {ip : List Nat} {cbs : Nat}
    (h : addIpCidrGo t ip cbs = some t2) (hg : GoodRoot t) : GoodRoot t2 := by
  unfold addIpCidrGo at h
  cases hc : t.root.getChild (ip.getD 0 0) with
  | none => rw [hc] at h; exact absurd h (by simp)
  | some node =>
    rw [hc] at h
    obtain rfl := Option.some.inj h
    refine ⟨hg.1, fun v hv => ?_⟩
    show (if v = ip.getD 0 0 then some (addPath node ((ip.drop 1).take (cbs - 1)))
      else t.root.child v).isSome = true
    by_cases hveq : v = ip.getD 0 0
    · rw [if_pos hveq]; rfl
    · rw [if_neg hveq]; exact hg.2 v hv

theorem foldlM_addIpCidrGo_goodRoot {cbs : Nat} :
    ∀ (subs : List (List Nat)) (t t2 : IpCidrTrie),
      subs.foldlM (fun tr sub => addIpCidrGo tr sub cbs) t = some t2 →
      GoodRoot t → GoodRoot t2 := by
  intro subs
  induction subs with
  | nil => intro t t2 h hg; simp at h; exact h ▸ hg
  | cons sub rest ih =>
    intro t t2 h hg
    rw [List.foldlM_cons] at h
    cases hstep : addIpCidrGo t sub cbs with
    | none => rw [hstep] at h; exact absurd h (by simp)
    | some tmid =>
      rw [hstep] at h
      exact ih tmid t2 h (addIpCidrGo_goodRoot hstep hg)

theorem addIpCidr_goodRoot {t t2 : IpCidrTrie} {s : String}
    (h : addIpCidr t s = .ok (some t2)) (hg : GoodRoot t) : GoodRoot t2 := by
  unfold addIpCidr at h
  cases hsplit : splitSubIpCidr s with
  | error e => rw [hsplit] at h; exact absurd h (by simp)
  | ok pair =>
    rw [hsplit] at h
    obtain hfold := Except.ok.inj h
    exact foldlM_addIpCidrGo_goodRoot pair.1 t t2 hfold hg

theorem buildTrie_goodRoot (ops : List String) : GoodRoot (buildTrie ops) := by
  suffices hgen : ∀ (l : List String) (t : IpCidrTrie), GoodRoot t →
      GoodRoot (l.foldl (fun t s =>
        match addIpCidr t s with
        | .ok (some t2) => t2
        | _ => t) t) by
    exact hgen ops newIpCidrTrie goodRoot_new
  intro l
  induction l with
  | nil => intro t hg; simpa using hg
  | cons s rest ih =>
    intro t hg
    rw [List.foldl_cons]
    apply ih
    cases hadd : addIpCidr t s with
    | error e => simpa [hadd] using hg
    | ok r =>
      cases r with
      | none => simpa [hadd] using hg
      | some t2 => simpa [hadd] using addIpCidr_goodRoot hadd hg

theorem readIpOctet_lt {first : Bool} {ip : List Nat} {n : Nat} {r : List Nat}
    (h : readIpOctet first ip = some (n, r)) : n < 256 := by
  unfold readIpOctet at h
  by_cases he : ip.isEmpty
  · rw [if_pos he] at h; exact absurd h (by simp)
  · rw [if_neg he] at h
    cases hs : stripDot first ip with
    | none => simp [hs] at h
    | some ip2 =>
      simp only [hs] at h
      rcases hd : dtoi ip2 with ⟨n1, c1, ok1⟩
      simp only [hd] at h
      by_cases hcond : (!ok1) = true ∨ n1 > 255
      · rw [if_pos hcond] at h; exact absurd h (by simp)
      · rw [if_neg hcond] at h
        simp only [Option.some.injEq, Prod.mk.injEq] at h
        push_neg at hcond
        omega

theorem validAndObtainIp_shape {s l : List Nat} (h : validAndObtainIp s = some l) :
    ∃ a b c d, l = [a, b, c, d] ∧ a < 256 ∧ b < 256 ∧ c < 256 ∧ d < 256 := by
  unfold validAndObtainIp at h
  cases h1 : readIpOctet true s with
  | none => simp [h1] at h
  | some p1 =>
    obtain ⟨a, r1⟩ := p1
    simp only [h1] at h
    cases h2 : readIpOctet false r1 with
    | none => simp [h2] at h
    | some p2 =>
      obtain ⟨b, r2⟩ := p2
      simp only [h2] at h
      cases h3 : readIpOctet false r2 with
      | none => simp [h3] at h
      | some p3 =>
        obtain ⟨c, r3⟩ := p3
        simp only [h3] at h
        cases h4 : readIpOctet false r3 with
        | none => simp [h4] at h
        | some p4 =>
          obtain ⟨d, r4⟩ := p4
          simp only [h4] at h
          exact ⟨a, b, c, d, (Option.some.inj h).symm,
            readIpOctet_lt h1, readIpOctet_lt h2, readIpOctet_lt h3, readIpOctet_lt h4⟩

theorem searchGo_isSome {t : IpCidrTrie} (hg : GoodRoot t) {v : Nat} (hv : v < 256)
    (rest : List Nat) : (searchGo t.root (v :: rest)).isSome := by
  unfold searchGo IpCidrNode.getChild
  rw [hg.1]
  simp only [Bool.false_eq_true, if_false]
  cases hc : t.root.child v with
  | none => exact absurd (hc ▸ hg.2 v hv) (by simp)
  | some node => simp

/-- C10: on every trie built by a sequence of `AddIpCidr` calls,
`IsContain` is total — the embedded search never reaches a nil
dereference, because the pre-allocated root is never tagged and tagged
nodes report no children — and every input from which four dot-separated
octets of value at most 255 cannot be parsed yields `false`. -/
theorem isContain_total_on_built_tries (ops : List String) (s : String) :
    (isContain (buildTrie ops) s).isSome ∧
      (validAndObtainIp (strBytes s) = none → isContain (buildTrie ops) s = some false) := by
  constructor
  · unfold isContain
    cases hp : validAndObtainIp (strBytes s) with
    | none => simp
    | some vals =>
      obtain ⟨a, b, c, d, rfl, ha, _, _, _⟩ := validAndObtainIp_shape hp
      have hs := searchGo_isSome (buildTrie_goodRoot ops) ha [b, c, d]
      cases hso : searchGo (buildTrie ops).root [a, b, c, d] with
      | none => rw [hso] at hs; exact absurd hs (by simp)
      | some r => simp [hso]
  · intro hp
    unfold isContain
    rw [hp]

/-- Witness for C10 at a concrete trie and a concrete unparsable input
(an IPv6 literal). -/
theorem isContain_total_on_built_tries_witness :
    validAndObtainIp (strBytes "::1") = none ∧
      isContain (buildTrie ["1.2.3.4/32"]) "::1" = some false :=
  ⟨by decide, (isContain_total_on_built_tries ["1.2.3.4/32"] "::1").2 (by decide)⟩

/-- C2 fails on the code: `AddIpCidr "10.0.0.0/9"` succeeds yet inserts
nothing, because `splitSubIpCidr` derives the number of /8-aligned
sub-prefixes from the host bits of the given address octet
(`uint8Ip[cidrIndex] & (0xFF >> lastIndexCidrNum)`, equal to 0 here)
instead of the size of the range; the contained address `10.0.0.1` is then
not found. -/
theorem addIpCidr_slash9_misses_contained_ip :
    addOk newIpCidrTrie "10.0.0.0/9" = true ∧
      splitSubIpCidr "10.0.0.0/9" = .ok ([], 16) ∧
      isContain (buildTrie ["10.0.0.0/9"]) "10.0.0.1" = some false := by
  refine ⟨by decide, rfl, by decide⟩

/-- C3 fails on the code: inserting `0.0.0.0/0` succeeds but only tags the
root child for first octet 0 (`addIpCidr` with `cidrByteSize = 0` marks
`root.child[ip[0]]`), so the trie matches exactly the addresses whose
first octet is 0 rather than all of IPv4. -/
theorem addIpCidr_slash0_not_universal :
    addOk newIpCidrTrie "0.0.0.0/0" = true ∧
      isContain (buildTrie ["0.0.0.0/0"]) "1.2.3.4" = some false ∧
      isContain (buildTrie ["0.0.0.0/0"]) "0.200.3.4" = some true := by
  refine ⟨by decide, by decide, by decide⟩

/-! ## Theorems: dispatch engine -/

@[simp] theorem bumpCalls_m (o : LoopOut) (k : Nat) : (bumpCalls o k).m = o.m := rfl

@[simp] theorem bumpCalls_proxy (o : LoopOut) (k : Nat) : (bumpCalls o k).proxy = o.proxy := rfl

@[simp] theorem bumpCalls_rule (o : LoopOut) (k : Nat) : (bumpCalls o k).rule = o.rule := rfl

@[simp] theorem bumpCalls_calls (o : LoopOut) (k : Nat) : (bumpCalls o k).calls = k + o.calls := rfl

theorem safeAssert_eq_true_iff (a : Proxy) (m : Metadata) (pt : AdapterType) :
    safeAssertProxyType a m pt = true ↔ ∃ p, a.unwrap m = some p ∧ p.adapterType = pt := by
  unfold safeAssertProxyType
  cases h : a.unwrap m with
  | none => simp
  | some p => simp [decide_eq_true_iff]

/-- Soundness of a loop outcome, written from the claim text of C1 for
the rule-returning case, with the `DIRECT` or `GLOBAL` map entry in the
no-rule case. -/
def dispatchSound (ts : TunnelState) (o : LoopOut) : Prop :=
  match o.rule with
  | none => o.proxy = ts.proxies "DIRECT" ∨ o.proxy = ts.proxies "GLOBAL"
  | some r => r.Match o.m = true ∧ o.proxy = ts.proxies r.Adapter

theorem matchLoop_dispatchSound (ts : TunnelState) :
    ∀ (rules : List GoRule) (m : Metadata) (resolved : Bool),
      dispatchSound ts (matchLoop ts m resolved rules) := by
  intro rules
  induction rules with
  | nil => intro m resolved; exact Or.inl rfl
  | cons rule rest ih =>
    intro m resolved
    rcases hstep : matchStepResolve ts m resolved rule with ⟨m2, p⟩
    rcases p with ⟨resolved2, k⟩
    show dispatchSound ts (matchLoop ts m resolved (rule :: rest))
    rw [matchLoop, hstep]
    dsimp only
    by_cases hm : rule.Match m2 = true
    · rw [if_pos hm]
      cases hpr : ts.proxies rule.Adapter with
      | none =>
        unfold dispatchSound
        simp only [bumpCalls_rule, bumpCalls_m, bumpCalls_proxy]
        exact ih m2 resolved2
      | some adapter =>
        dsimp only
        by_cases hpass : adapter.adapterType = AdapterType.Pass ∨
            safeAssertProxyType adapter m2 AdapterType.Pass
        · rw [if_pos hpass]
          unfold dispatchSound
          simp only [bumpCalls_rule, bumpCalls_m, bumpCalls_proxy]
          exact ih m2 resolved2
        · rw [if_neg hpass]
          by_cases hudp : m2.network = NetWorkKind.udp ∧ adapter.supportUDP = false
          · rw [if_pos hudp]
            unfold dispatchSound
            simp only [bumpCalls_rule, bumpCalls_m, bumpCalls_proxy]
            exact ih m2 resolved2
          · rw [if_neg hudp]
            exact ⟨hm, hpr.symm⟩
    · rw [if_neg hm]
      unfold dispatchSound
      simp only [bumpCalls_rule, bumpCalls_m, bumpCalls_proxy]
      exact ih m2 resolved2

/-- C1: whatever `resolveMetadata` returns (it never returns an error),
either no rule is returned and the adapter is the proxy-map entry under
`DIRECT` or under `GLOBAL`, or the returned rule matches the metadata as
mutated during matching and the adapter is the proxy-map entry under the
rule's adapter name. -/
theorem resolveMetadata_sound (ts : TunnelState) (mode : TunnelMode) (m : Metadata) :
    dispatchSound ts (resolveMetadata ts mode m) := by
  cases mode with
  | Direct => exact Or.inl rfl
  | Global => exact Or.inr rfl
  | Rule =>
    show dispatchSound ts (matchGo ts m)
    unfold matchGo
    cases ts.hosts m.host with
    | none => exact matchLoop_dispatchSound ts ts.rules m false
    | some ip => exact matchLoop_dispatchSound ts ts.rules _ true

/-- C5: in the rule loop, a rule whose `Match` returns true is skipped —
the loop continues with the remaining rules on the same state — exactly
when the skip conditions hold (adapter missing, of type `Pass`, unwrapping
to `Pass`, or UDP-unsupported on a UDP flow); otherwise the loop returns
that adapter and rule. -/
theorem match_skip_characterization (ts : TunnelState) (m : Metadata) (resolved : Bool)
    (rule : GoRule) (rest : List GoRule)
    (hm : rule.Match (matchStepResolve ts m resolved rule).1 = true) :
    (skipConditions ts (matchStepResolve ts m resolved rule).1 rule →
      matchLoop ts m resolved (rule :: rest) =
        bumpCalls (matchLoop ts (matchStepResolve ts m resolved rule).1
          (matchStepResolve ts m resolved rule).2.1 rest)
          (matchStepResolve ts m resolved rule).2.2) ∧
    (¬ skipConditions ts (matchStepResolve ts m resolved rule).1 rule →
      ∃ a, ts.proxies rule.Adapter = some a ∧
        matchLoop ts m resolved (rule :: rest) =
          ⟨(matchStepResolve ts m resolved rule).1, some a, some rule,
            (matchStepResolve ts m resolved rule).2.2⟩) := by
  rcases hstep : matchStepResolve ts m resolved rule with ⟨m2, p⟩
  rcases p with ⟨resolved2, k⟩
  simp only [hstep] at hm
  simp only [hstep]
  rw [matchLoop, hstep]
  dsimp only
  rw [if_pos hm]
  constructor
  · intro hskip
    cases hpr : ts.proxies rule.Adapter with
    | none => rfl
    | some adapter =>
      dsimp only
      have hcond : adapter.adapterType = AdapterType.Pass ∨
          safeAssertProxyType adapter m2 AdapterType.Pass ∨
          (m2.network = NetWorkKind.udp ∧ adapter.supportUDP = false) := by
        rcases hskip with habs | ⟨a, ha, hcase⟩
        · rw [hpr] at habs; exact absurd habs (by simp)
        · rw [hpr] at ha
          obtain rfl := Option.some.inj ha
          rcases hcase with h1 | h2 | h3
          · exact Or.inl h1
          · exact Or.inr (Or.inl ((safeAssert_eq_true_iff adapter m2 AdapterType.Pass).mpr h2))
          · exact Or.inr (Or.inr h3)
      rcases hcond with h1 | h2 | h3
      · rw [if_pos (Or.inl h1)]
      · rw [if_pos (Or.inr h2)]
      · by_cases hpass : adapter.adapterType = AdapterType.Pass ∨
            safeAssertProxyType adapter m2 AdapterType.Pass
        · rw [if_pos hpass]
        · rw [if_neg hpass, if_pos h3]
  · intro hskip
    cases hpr : ts.proxies rule.Adapter with
    | none => exact absurd (Or.inl hpr) hskip
    | some adapter =>
      dsimp only
      refine ⟨adapter, rfl, ?_⟩
      have hnpass : ¬ (adapter.adapterType = AdapterType.Pass ∨
          safeAssertProxyType adapter m2 AdapterType.Pass) := by
        intro hp
        apply hskip
        refine Or.inr ⟨adapter, hpr, ?_⟩
        rcases hp with h1 | h2
        · exact Or.inl h1
        · exact Or.inr (Or.inl ((safeAssert_eq_true_iff adapter m2 AdapterType.Pass).mp h2))
      have hnudp : ¬ (m2.network = NetWorkKind.udp ∧ adapter.supportUDP = false) := by
        intro hu
        exact hskip (Or.inr ⟨adapter, hpr, Or.inr (Or.inr hu)⟩)
      rw [if_neg hnpass, if_neg hnudp]

/-- Witness for C5 at a concrete state: a matching rule whose adapter
name is absent from the proxy map is skipped and the loop falls through
to the concrete `DIRECT` entry of the following state. -/
theorem match_skip_characterization_witness :
    (witnessRule.Match (matchStepResolve witnessTs witnessMeta true witnessRule).1 = true) ∧
      skipConditions witnessTs (matchStepResolve witnessTs witnessMeta true witnessRule).1
        witnessRule ∧
      matchLoop witnessTs witnessMeta true [witnessRule] =
        bumpCalls (matchLoop witnessTs
          (matchStepResolve witnessTs witnessMeta true witnessRule).1
          (matchStepResolve witnessTs witnessMeta true witnessRule).2.1 [])
          (matchStepResolve witnessTs witnessMeta true witnessRule).2.2 :=
  ⟨rfl, Or.inl rfl,
    (match_skip_characterization witnessTs witnessMeta true witnessRule [] rfl).1 (Or.inl rfl)⟩

theorem matchStepResolve_fires_iff (ts : TunnelState) (m : Metadata) (resolved : Bool)
    (rule : GoRule) :
    (matchStepResolve ts m resolved rule).2.2 = 1 ↔
      resolved = false ∧ rule.ShouldResolveIP = true ∧ m.host ≠ "" ∧ m.dstIP = none := by
  unfold matchStepResolve shouldResolveIP
  by_cases hc : (!resolved && (rule.ShouldResolveIP && decide (m.host ≠ "") && decide (m.dstIP = none))) = true
  · rw [if_pos hc]
    simp only [Bool.and_eq_true, Bool.not_eq_true', decide_eq_true_iff] at hc
    obtain ⟨hres, ⟨hsr, hh⟩, hd⟩ := hc
    cases ts.resolveIP m.host <;> simp [hres, hsr, hh, hd]
  · rw [if_neg hc]
    constructor
    · intro habs; exact absurd habs (by simp)
    · rintro ⟨hres, hsr, hh, hd⟩
      exact (hc (by simp [hres, hsr, hh, hd])).elim

theorem matchStepResolve_cases (ts : TunnelState) (m : Metadata) (resolved : Bool)
    (rule : GoRule) :
    matchStepResolve ts m resolved rule = (m, resolved, 0) ∨
      (resolved = false ∧ (matchStepResolve ts m resolved rule).2.1 = true ∧
        (matchStepResolve ts m resolved rule).2.2 = 1) := by
  unfold matchStepResolve
  by_cases hc : (!resolved && shouldResolveIP rule m) = true
  · rw [if_pos hc]
    simp only [Bool.and_eq_true, Bool.not_eq_true'] at hc
    cases ts.resolveIP m.host <;> exact Or.inr ⟨hc.1, rfl, rfl⟩
  · rw [if_neg hc]
    exact Or.inl rfl

theorem matchLoop_calls_le (ts : TunnelState) :
    ∀ (rules : List GoRule) (m : Metadata) (resolved : Bool),
      (matchLoop ts m resolved rules).calls ≤ (if resolved then 0 else 1) := by
  intro rules
  induction rules with
  | nil =>
    intro m resolved
    show 0 ≤ _
    exact Nat.zero_le _
  | cons rule rest ih =>
    intro m resolved
    have hrec : ∀ (m2 : Metadata) (r2 : Bool) (k : Nat),
        k + (matchLoop ts m2 r2 rest).calls ≤ k + (if r2 then 0 else 1) :=
      fun m2 r2 k => Nat.add_le_add_left (ih m2 r2) k
    have hcase := matchStepResolve_cases ts m resolved rule
    rcases hstep : matchStepResolve ts m resolved rule with ⟨m2, p⟩
    rcases p with ⟨resolved2, k⟩
    rw [hstep] at hcase
    have hbound : k + (if resolved2 then 0 else 1) ≤ (if resolved then 0 else 1) := by
      rcases hcase with heq | ⟨hres, h21, h22⟩
      · simp only [Prod.mk.injEq] at heq
        obtain ⟨-, h2, h3⟩ := heq
        subst h2; subst h3
        simp
      · have hr2 : resolved2 = true := h21
        have hk : k = 1 := h22
        subst hr2; subst hk; subst hres
        simp
    rw [matchLoop, hstep]
    dsimp only
    by_cases hm : rule.Match m2 = true
    · rw [if_pos hm]
      cases hpr : ts.proxies rule.Adapter with
      | none =>
        show k + (matchLoop ts m2 resolved2 rest).calls ≤ _
        exact le_trans (hrec m2 resolved2 k) hbound
      | some adapter =>
        dsimp only
        by_cases hpass : adapter.adapterType = AdapterType.Pass ∨
            safeAssertProxyType adapter m2 AdapterType.Pass
        · rw [if_pos hpass]
          exact le_trans (hrec m2 resolved2 k) hbound
        · rw [if_neg hpass]
          by_cases hudp : m2.network = NetWorkKind.udp ∧ adapter.supportUDP = false
          · rw [if_pos hudp]
            exact le_trans (hrec m2 resolved2 k) hbound
          · rw [if_neg hudp]
            show k ≤ _
            exact le_trans (Nat.le_add_right k _) hbound
    · rw [if_neg hm]
      exact le_trans (hrec m2 resolved2 k) hbound

/-- C6: within one `match` call the resolver runs at most once; a
pre-rule step invokes it exactly when no prior resolution happened, the
rule asks for resolution, the host is nonempty and the destination IP is
nil; a step that does not invoke it leaves the metadata unchanged, and an
invoking step sets the destination IP on success and leaves it nil on
failure. -/
theorem match_resolves_at_most_once (ts : TunnelState) (m : Metadata) :
    (matchGo ts m).calls ≤ 1 ∧
      ∀ (resolved : Bool) (rule : GoRule),
        ((matchStepResolve ts m resolved rule).2.2 = 1 ↔
          resolved = false ∧ rule.ShouldResolveIP = true ∧ m.host ≠ "" ∧ m.dstIP = none) ∧
        ((matchStepResolve ts m resolved rule).2.2 = 0 →
          (matchStepResolve ts m resolved rule).1 = m) ∧
        ((matchStepResolve ts m resolved rule).2.2 = 1 →
          (matchStepResolve ts m resolved rule).1.dstIP =
            match ts.resolveIP m.host with
            | some ip => some ip
            | none => m.dstIP) := by
  refine ⟨?_, fun resolved rule => ⟨matchStepResolve_fires_iff ts m resolved rule, ?_, ?_⟩⟩
  · unfold matchGo
    cases ts.hosts m.host with
    | none => exact le_trans (matchLoop_calls_le ts ts.rules m false) (by simp)
    | some ip => exact le_trans (matchLoop_calls_le ts ts.rules _ true) (by simp)
  · intro h0
    rcases matchStepResolve_cases ts m resolved rule with heq | ⟨hres, h21, h22⟩
    · rw [heq]
    · rw [h22] at h0; exact absurd h0 (by simp)
  · intro h1
    unfold matchStepResolve at h1 ⊢
    by_cases hc : (!resolved && shouldResolveIP rule m) = true
    · rw [if_pos hc] at h1 ⊢
      cases hres : ts.resolveIP m.host <;> simp [hres]
    · rw [if_neg hc] at h1
      exact absurd h1 (by simp)

/-- Witness for C6 at a concrete state: a rule requiring resolution on a
hostname flow fires the resolver, and the whole match call makes at most
one resolver invocation. -/
theorem match_resolves_at_most_once_witness :
    (matchGo witnessTs witnessMeta).calls ≤ 1 ∧
      (matchStepResolve witnessTs witnessMeta false witnessResolvingRule).2.2 = 1 :=
  ⟨(match_resolves_at_most_once witnessTs witnessMeta).1,
    ((match_resolves_at_most_once witnessTs witnessMeta).2 false witnessResolvingRule).1.mpr
      ⟨rfl, rfl, by decide, rfl⟩⟩

/-! ## Theorems: fetcher update -/

/-- C7 as amended: the full case analysis of one provider update call. -/
theorem provider_update_characterization {α β : Type} (env : FetchEnv α)
    (construct : α → Except String β) (countOf : α → Nat) (st : ProviderState β) :
    updateSpec env construct countOf st := by
  unfold updateSpec
  cases henv : env.read with
  | error e =>
    dsimp only
    refine ⟨?_, ?_, ?_, ?_, ?_⟩ <;>
      simp [providerUpdate, fetcherUpdate, henv]
  | ok buf =>
    dsimp only
    by_cases hh : st.fetcher.hash = env.md5 buf
    · rw [if_pos hh]
      refine ⟨?_, ?_, ?_, ?_, ?_, ?_, ?_⟩ <;>
        simp [providerUpdate, fetcherUpdate, henv, hh]
    · rw [if_neg hh]
      cases hp : env.parse buf with
      | error e =>
        dsimp only
        refine ⟨?_, ?_, ?_, ?_, ?_⟩ <;>
          simp [providerUpdate, fetcherUpdate, henv, hh, hp]
      | ok rules =>
        dsimp only
        by_cases hw : env.vehicleType ≠ VehicleType.File ∧ env.writeOk = false
        · rw [if_pos hw]
          refine ⟨?_, ?_, ?_, ?_, ?_⟩ <;>
            simp [providerUpdate, fetcherUpdate, henv, hh, hp, hw]
        · rw [if_neg hw]
          refine ⟨?_, ?_, ?_, ?_⟩
          · simp [providerUpdate, fetcherUpdate, henv, hh, hp, hw]
          · simp [providerUpdate, fetcherUpdate, henv, hh, hp, hw]
          · simp [providerUpdate, fetcherUpdate, henv, hh, hp, hw]
          · cases hc : construct rules <;>
              simp [providerUpdate, fetcherUpdate, henv, hh, hp, hw, hc]

/-- C7 fails as stated: with a successful fetch, a changed MD5 and a
successful parse but a failing persist (vehicle HTTP), `Update` returns an
error, keeps the stored hash `[0]` unchanged and never invokes the update
callback, although the claim promises hash replacement and callback
delivery in every non-error non-same case. -/
theorem fetcher_update_write_failure_counterexample :
    cexEnv.read = .ok [1] ∧
      cexEnv.md5 [1] = [7] ∧
      cexFetcher.hash = [0] ∧
      cexEnv.parse [1] = .ok 5 ∧
      fetcherUpdate cexEnv cexFetcher =
        ⟨none, false, some "safeWrite failed", cexFetcher, true, none⟩ ∧
      (providerUpdate cexEnv (fun n => .ok n) (fun _ => 1) cexProvider).callbackArg = none :=
  ⟨rfl, rfl, rfl, rfl, rfl, rfl⟩

/-! ## Theorems: VLESS framing -/

/-- C9: the request written on the first stream bytes is exactly
`[version 0, 16-byte UUID, addon length 0, command (TCP 1, UDP 2),
big-endian port, address type, address]` — 22 bytes plus the address —
and the first read consumes `[version 0, addon length, addon bytes]`,
discarding the addon bytes, and fails when the response version is not
0. -/
theorem vless_framing (id : List Nat) (dst : DstAddr) (hid : id.length = 16)
    (addon rest : List Nat) (v : Nat) (hv : v ≠ 0) (s : List Nat) :
    sendRequestBytes id dst =
      [0] ++ id ++ [0] ++ [if dst.udp then 2 else 1] ++
        [dst.port % 65536 / 256, dst.port % 65536 % 256] ++ [dst.addrType] ++ dst.addr ∧
      (sendRequestBytes id dst).length = 22 + dst.addr.length ∧
      recvResponseGo (0 :: addon.length :: (addon ++ rest)) = .ok rest ∧
      recvResponseGo (v :: s) = .error "unexpected response version" := by
  refine ⟨?_, ?_, ?_, ?_⟩
  · have hmod : dst.port % 65536 % 256 = dst.port % 256 :=
      Nat.mod_mod_of_dvd dst.port (by norm_num)
    simp [sendRequestBytes, vlessVersion, commandTCP, commandUDP, hmod]
  · simp only [sendRequestBytes, List.length_append, List.length_cons, List.length_nil, hid]
  · simp [recvResponseGo, vlessVersion, List.drop_left]
  · simp [recvResponseGo, vlessVersion, hv]

/-- Witness for C9 at concrete inputs: a 16-byte UUID, a two-byte addon
response that is discarded, and a nonzero version that is rejected. -/
theorem vless_framing_witness :
    (List.replicate 16 0).length = 16 ∧ (5 : Nat) ≠ 0 ∧
      recvResponseGo (0 :: ([9, 9] : List Nat).length :: ([9, 9] ++ [7])) = .ok [7] :=
  ⟨rfl, by decide,
    (vless_framing (List.replicate 16 0) ⟨false, 1, [1, 2, 3, 4], 443⟩ rfl [9, 9] [7] 5
      (by decide) []).2.2.1⟩

/-! ## Theorems: SOCKS4 handshake -/

theorem readUntilNull_append (u rest : List Nat) (hu : ¬ 0 ∈ u) :
    readUntilNullGo (u ++ 0 :: rest) = some (u, rest) := by
  induction u with
  | nil => simp [readUntilNullGo]
  | cons b bs ih =>
    have hb : b ≠ 0 := by intro h; exact hu (by simp [h])
    have hbs : ¬ 0 ∈ bs := fun h => hu (by simp [h])
    simp [readUntilNullGo, hb, ih hbs]

theorem parseIPv4Go_shape {host l : List Nat} (h : parseIPv4Go host = some l) :
    ∃ a b c d, l = [a, b, c, d] := by
  unfold parseIPv4Go at h
  cases h1 : readIpOctet true host with
  | none => simp [h1] at h
  | some p1 =>
    obtain ⟨a, r1⟩ := p1
    simp only [h1] at h
    cases h2 : readIpOctet false r1 with
    | none => simp [h2] at h
    | some p2 =>
      obtain ⟨b, r2⟩ := p2
      simp only [h2] at h
      cases h3 : readIpOctet false r2 with
      | none => simp [h3] at h
      | some p3 =>
        obtain ⟨c, r3⟩ := p3
        simp only [h3] at h
        cases h4 : readIpOctet false r3 with
        | none => simp [h4] at h
        | some p4 =>
          obtain ⟨d, r4⟩ := p4
          simp only [h4] at h
          by_cases hr : r4 = []
          · rw [if_pos hr] at h
            exact ⟨a, b, c, d, (Option.some.inj h).symm⟩
          · rw [if_neg hr] at h
            exact absurd h (by simp)

theorem parseIPv4Go_ne_nil {host l : List Nat} (h : parseIPv4Go host = some l) :
    host ≠ [] := by
  intro hnil
  rw [hnil] at h
  have hempty : parseIPv4Go [] = none := by decide
  rw [hempty] at h
  exact Option.noConfusion h

theorem serverHandshake_eval (hi lo a b c d : Nat) (userID tail : List Nat)
    (huid : ¬ 0 ∈ userID) :
    serverHandshake (4 :: 1 :: hi :: lo :: a :: b :: c :: d :: (userID ++ 0 :: tail)) =
      if isReservedIP [a, b, c, d] then
        match readUntilNullGo tail with
        | none => ⟨none, 1, some userID, true⟩
        | some (host, _) =>
          if host ≠ [] then ⟨some ⟨none, host, hi * 256 + lo⟩, 1, some userID, false⟩
          else ⟨some ⟨some [a, b, c, d], [], hi * 256 + lo⟩, 1, some userID, false⟩
      else ⟨some ⟨some [a, b, c, d], [], hi * 256 + lo⟩, 1, some userID, false⟩ := by
  unfold serverHandshake
  dsimp only
  rw [if_neg (by omega : ¬ (4 : Nat) ≠ 4), if_neg (by omega : ¬ (1 : Nat) ≠ 1)]
  rw [readUntilNull_append userID tail huid]
  dsimp only
  by_cases hres : isReservedIP [a, b, c, d] = true
  · rw [if_pos hres, if_pos hres]
  · rw [if_neg hres, if_neg hres]
    simp

/-- C8 as amended: a SOCKS4 request for command CONNECT, a NUL-free and
colon-free host and a NUL-free user id roundtrips — the server recovers
the command, the same user id, the same port, and the destination as an
IPv4 address for a plain IPv4 host or as the original host string
otherwise. -/
theorem socks4_roundtrip (host userID : List Nat) (port : Nat)
    (hport : port < 65536) (hhost : ¬ 0 ∈ host) (hcolon : ¬ 58 ∈ host)
    (huid : ¬ 0 ∈ userID) :
    ∃ req, clientRequestBytes host port 1 userID = some req ∧
      serverHandshake req = ⟨some (expectedSocks4Addr host port), 1, some userID, false⟩ := by
  have hport2 : port / 256 * 256 + port % 256 = port := by omega
  unfold clientRequestBytes
  rw [if_neg (by omega : ¬ port ≥ 65536)]
  refine ⟨_, rfl, ?_⟩
  cases hp : parseIPv4Go host with
  | some p =>
    obtain ⟨a, b, c, d, rfl⟩ := parseIPv4Go_shape hp
    have hdst : socks4DstIP host = [a, b, c, d] := by simp [socks4DstIP, hp]
    rw [hdst]
    have hne : host ≠ [] := parseIPv4Go_ne_nil hp
    by_cases hres : isReservedIP [a, b, c, d] = true
    · rw [if_pos hres]
      have hlist : [4, 1 % 256] ++ [port / 256, port % 256] ++ [a, b, c, d] ++ userID ++ [0] ++
          (host ++ [0]) =
          4 :: 1 :: (port / 256) :: (port % 256) :: a :: b :: c :: d ::
            (userID ++ 0 :: (host ++ 0 :: [])) := by simp
      rw [hlist, serverHandshake_eval (port / 256) (port % 256) a b c d userID
        (host ++ 0 :: []) huid, if_pos hres, readUntilNull_append host [] hhost]
      simp only [expectedSocks4Addr, hp, hres, if_true, if_pos hne, hport2]
    · rw [if_neg hres]
      have hlist : [4, 1 % 256] ++ [port / 256, port % 256] ++ [a, b, c, d] ++ userID ++ [0] ++
          ([] : List Nat) =
          4 :: 1 :: (port / 256) :: (port % 256) :: a :: b :: c :: d ::
            (userID ++ 0 :: []) := by simp
      rw [hlist, serverHandshake_eval (port / 256) (port % 256) a b c d userID [] huid,
        if_neg hres]
      simp only [expectedSocks4Addr, hp, hres, if_false, hport2]
      simp [hres]
  | none =>
    have hdst : socks4DstIP host = [0, 0, 0, 1] := by simp [socks4DstIP, hp]
    rw [hdst]
    have hres : isReservedIP [0, 0, 0, 1] = true := by decide
    rw [if_pos hres]
    have hlist : [4, 1 % 256] ++ [port / 256, port % 256] ++ [0, 0, 0, 1] ++ userID ++ [0] ++
        (host ++ [0]) =
        4 :: 1 :: (port / 256) :: (port % 256) :: 0 :: 0 :: 0 :: 1 ::
          (userID ++ 0 :: (host ++ 0 :: [])) := by simp
    rw [hlist, serverHandshake_eval (port / 256) (port % 256) 0 0 0 1 userID
      (host ++ 0 :: []) huid, if_pos hres, readUntilNull_append host [] hhost]
    by_cases hnil : host = []
    · subst hnil
      simp [expectedSocks4Addr, hp, hport2]
    · simp only [if_pos hnil, expectedSocks4Addr, hp, hport2]
      simp [hnil, hport2]

/-- Witness for C8 as amended, at the concrete host bytes of the string
`ex`, port 443 and user id byte 117. -/
theorem socks4_roundtrip_witness :
    443 < 65536 ∧ (¬ 0 ∈ ([101, 120] : List Nat)) ∧ (¬ 58 ∈ ([101, 120] : List Nat)) ∧
      (¬ 0 ∈ ([117] : List Nat)) ∧
      ∃ req, clientRequestBytes [101, 120] 443 1 [117] = some req ∧
        serverHandshake req =
          ⟨some (expectedSocks4Addr [101, 120] 443), 1, some [117], false⟩ :=
  ⟨by decide, by decide, by decide, by decide,
    socks4_roundtrip [101, 120] [117] 443 (by decide) (by decide) (by decide) (by decide)⟩

/-- C8 fails as stated for command BIND: the client writes a complete
request for `(cmd = 2, host 1.2.3.4, port 80, userid v)` but the server
rejects the command, returning an error with no address and no user id —
nothing of the tuple beyond the command byte is recovered. -/
theorem socks4_roundtrip_fails_for_bind :
    (clientRequestBytes [49, 46, 50, 46, 51, 46, 52] 80 2 [117]).isSome = true ∧
      serverHandshake ((clientRequestBytes [49, 46, 50, 46, 51, 46, 52] 80 2 [117]).getD []) =
        ⟨none, 2, none, true⟩ :=
  ⟨by decide, by decide⟩

/-! ## Theorems: UDP NAT single-flight -/

theorem countP_owner_insert (k k2 : String) (ph : UdpPhase) (pre post : List UdpTask) :
    (pre ++ ⟨k, ph⟩ :: post).countP (ownerPred k2) =
      pre.countP (ownerPred k2) + post.countP (ownerPred k2) +
        (if k = k2 ∧ ph = UdpPhase.owner then 1 else 0) := by
  rw [List.countP_append, List.countP_cons]
  by_cases hx : k = k2 ∧ ph = UdpPhase.owner
  · have hp : ownerPred k2 ⟨k, ph⟩ = true := by simp [ownerPred, hx.1, hx.2]
    rw [hp, if_pos hx]
    simp [Nat.add_assoc]
  · have hp : ownerPred k2 ⟨k, ph⟩ = false := by
      by_cases h1 : k = k2
      · have h2 : ph ≠ UdpPhase.owner := fun hph => hx ⟨h1, hph⟩
        simp [ownerPred, h1, h2]
      · simp [ownerPred, h1]
    rw [hp, if_neg hx]
    simp

theorem natStep_inv {s1 s2 : NatSys} (h : NatStep s1 s2) (hinv : NatInv s1) : NatInv s2 := by
  cases h with
  | spawn k =>
    intro k2
    have hco : ownersCount ⟨⟨k, UdpPhase.ready⟩ :: s1.tasks, s1.lock, s1.nat⟩ k2 =
        ownersCount s1 k2 := by
      unfold ownersCount
      dsimp only
      rw [List.countP_cons]
      have hp : ownerPred k2 ⟨k, UdpPhase.ready⟩ = false := by simp [ownerPred]
      rw [hp]
      simp
    exact ⟨hco ▸ (hinv k2).1, fun hx => (hinv k2).2 (hco ▸ hx)⟩
  | hitEntry pre post k h1 h2 =>
    intro k2
    have hco : ownersCount ⟨pre ++ ⟨k, UdpPhase.done⟩ :: post, s1.lock, s1.nat⟩ k2 =
        ownersCount s1 k2 := by
      unfold ownersCount
      dsimp only
      rw [h1, countP_owner_insert, countP_owner_insert]
      simp
    exact ⟨hco ▸ (hinv k2).1, fun hx => (hinv k2).2 (hco ▸ hx)⟩
  | waitOn pre post k h1 h2 h3 =>
    intro k2
    have hco : ownersCount ⟨pre ++ ⟨k, UdpPhase.waiting⟩ :: post, s1.lock, s1.nat⟩ k2 =
        ownersCount s1 k2 := by
      unfold ownersCount
      dsimp only
      rw [h1, countP_owner_insert, countP_owner_insert]
      simp
    exact ⟨hco ▸ (hinv k2).1, fun hx => (hinv k2).2 (hco ▸ hx)⟩
  | wake pre post k h1 h2 =>
    intro k2
    have hco : ownersCount ⟨pre ++ ⟨k, UdpPhase.done⟩ :: post, s1.lock, s1.nat⟩ k2 =
        ownersCount s1 k2 := by
      unfold ownersCount
      dsimp only
      rw [h1, countP_owner_insert, countP_owner_insert]
      simp
    exact ⟨hco ▸ (hinv k2).1, fun hx => (hinv k2).2 (hco ▸ hx)⟩
  | acquire pre post k h1 h2 h3 =>
    intro k2
    have hold : ownersCount s1 k2 =
        pre.countP (ownerPred k2) + post.countP (ownerPred k2) := by
      unfold ownersCount
      rw [h1, countP_owner_insert]
      simp
    have hnew : ownersCount ⟨pre ++ ⟨k, UdpPhase.owner⟩ :: post,
        fun kk => if kk = k then true else s1.lock kk, s1.nat⟩ k2 =
        pre.countP (ownerPred k2) + post.countP (ownerPred k2) +
          (if k = k2 then 1 else 0) := by
      unfold ownersCount
      dsimp only
      rw [countP_owner_insert]
      by_cases hk : k = k2
      · rw [if_pos ⟨hk, rfl⟩, if_pos hk]
      · rw [if_neg (fun hx => hk hx.1), if_neg hk]
    by_cases hk : k2 = k
    · subst hk
      have hzero : ownersCount s1 k2 = 0 := by
        by_contra hnz
        have h1le : 1 ≤ ownersCount s1 k2 := Nat.one_le_iff_ne_zero.mpr hnz
        have hlk := (hinv k2).2 h1le
        rw [hlk] at h3
        exact Bool.noConfusion h3
      rw [hold] at hzero
      constructor
      · rw [hnew, if_pos rfl]
        omega
      · intro hx
        dsimp only
        rw [if_pos rfl]
    · constructor
      · rw [hnew, if_neg (fun hx => hk hx.symm)]
        have hle := (hinv k2).1
        rw [hold] at hle
        omega
      · intro hx
        dsimp only
        rw [if_neg hk]
        apply (hinv k2).2
        rw [hnew, if_neg (fun hxx => hk hxx.symm)] at hx
        rw [hold]
        omega
  | ownerDone pre post k installed h1 =>
    intro k2
    have hold : ownersCount s1 k2 =
        pre.countP (ownerPred k2) + post.countP (ownerPred k2) +
          (if k = k2 then 1 else 0) := by
      unfold ownersCount
      rw [h1, countP_owner_insert]
      by_cases hk : k = k2
      · rw [if_pos ⟨hk, rfl⟩, if_pos hk]
      · rw [if_neg (fun hx => hk hx.1), if_neg hk]
    have hnew : ownersCount ⟨pre ++ ⟨k, UdpPhase.done⟩ :: post,
        fun kk => if kk = k then false else s1.lock kk,
        fun kk => if kk = k then installed else s1.nat kk⟩ k2 =
        pre.countP (ownerPred k2) + post.countP (ownerPred k2) := by
      unfold ownersCount
      dsimp only
      rw [countP_owner_insert]
      simp
    by_cases hk : k2 = k
    · subst hk
      have hle := (hinv k2).1
      rw [hold, if_pos rfl] at hle
      constructor
      · rw [hnew]
        omega
      · intro hx
        rw [hnew] at hx
        omega
    · constructor
      · rw [hnew]
        have hle := (hinv k2).1
        rw [hold, if_neg (fun hx => hk hx.symm)] at hle
        omega
      · intro hx
        dsimp only
        rw [if_neg hk]
        apply (hinv k2).2
        rw [hnew] at hx
        rw [hold, if_neg (fun hxx => hk hxx.symm)]
        omega

theorem natInit_inv : NatInv natInit := by
  intro k
  exact ⟨Nat.zero_le 1, fun hx => absurd hx (by simp [ownersCount, natInit])⟩

theorem natReachable_inv {s : NatSys} (h : NatReachable s) : NatInv s := by
  induction h with
  | refl => exact natInit_inv
  | tail hsteps hstep ih => exact natStep_inv hstep ih

/-- C4: in every state reachable by interleaving the packet-handling
steps, at most one task holds owner status — and hence has an outbound
dial in flight — for any given key; every other task for that key either
found the NAT entry installed, is blocked waiting, or has finished. -/
theorem udp_singleflight_owner_unique (s : NatSys) (h : NatReachable s) (k : String) :
    ownersCount s k ≤ 1 :=
  (natReachable_inv h k).1

/-- Witness for C4 at a concrete reachable state holding one owner,
reached by spawning a task and letting it acquire the lock token. -/
theorem udp_singleflight_owner_unique_witness :
    NatReachable ⟨[⟨"k", UdpPhase.owner⟩],
        fun kk => if kk = "k" then true else natInit.lock kk, natInit.nat⟩ ∧
      ownersCount ⟨[⟨"k", UdpPhase.owner⟩],
        fun kk => if kk = "k" then true else natInit.lock kk, natInit.nat⟩ "k" ≤ 1 := by
  have hreach : NatReachable ⟨[⟨"k", UdpPhase.owner⟩],
      fun kk => if kk = "k" then true else natInit.lock kk, natInit.nat⟩ :=
    Relation.ReflTransGen.tail
      (Relation.ReflTransGen.tail Relation.ReflTransGen.refl (NatStep.spawn natInit "k"))
      (NatStep.acquire ⟨[⟨"k", UdpPhase.ready⟩], natInit.lock, natInit.nat⟩ [] [] "k"
        rfl rfl rfl)
  exact ⟨hreach, udp_singleflight_owner_unique _ hreach "k"⟩

end Clash
